import Mathlib

/-!
Shallow embedding of `src/main.py` (Insurance-API): a GraphQL service over a
neo4j store, exposing `Query.applications`, `Query.getApplicationWithQuestion`
and `Mutation.saveAnswers`.

Modelling conventions:
* neo4j node/relationship property maps are association lists `PropMap`;
  Python `obj['k']` is `PropMap.getE` (a missing key raises `KeyError`,
  embedded as `PyErr.missingField`), Python `obj.get('k')` is `List.lookup`.
* A Python function that can raise returns `Except PyErr _`; an unbound local
  variable read is `PyErr.unboundLocal`.
* The two Cypher traversals of `getApplicationWithQuestion` are opaque inputs:
  the function receives the already-fetched row lists (`AnsRow`, `NoAnsRow`),
  exactly the shape `dict(record)` yields per row.
* The store state touched by `Mutation.saveAnswers` is `Store`: the set of
  `Question` nodes (identified by their `uuid` property) and the
  `HAS_ANSWER` relationships together with their target `Answer` nodes
  (`Rel`).  The Cypher `UNWIND ... MATCH ... MERGE ... ON CREATE ... ON MATCH`
  is embedded row by row: a `MATCH` miss drops the row, `MERGE` matches the
  pattern keyed by `(question uuid, has_application_uuid)`, `ON MATCH SET`
  updates every matching relationship, `ON CREATE` creates fresh uuids
  (drawn from a counter embedding `apoc.create.uuid()`) and sets both
  timestamps to `now` (embedding `timestamp()`).
-/

namespace InsuranceAPI

/-- Primitive property values held in neo4j property maps. -/
inductive Val
  | str (s : String)
  | int (n : Int)
  | date (t : Nat)
deriving DecidableEq, Repr

/-- A neo4j property map: string-keyed, primitively valued. -/
abbrev PropMap := List (String × Val)

/-- Python-level failures the core can raise: `KeyError` on a missing dict key
(`missingField`) and `UnboundLocalError` on a read of an unassigned local
(`unboundLocal`).  The source defines no typed domain errors. -/
inductive PyErr
  | missingField (key : String)
  | unboundLocal (name : String)
deriving DecidableEq, Repr

/-- Python `obj['k']`: raises `KeyError k` when the key is absent. -/
def PropMap.getE (m : PropMap) (k : String) : Except PyErr Val :=
  match m.lookup k with
  | some v => Except.ok v
  | none => Except.error (PyErr.missingField k)

/-- A Python list comprehension whose body may raise: left-to-right map with
propagation of the first failure. -/
def mapE {α β : Type} (f : α → Except PyErr β) : List α → Except PyErr (List β)
  | [] => Except.ok []
  | x :: xs =>
    match f x with
    | Except.error e => Except.error e
    | Except.ok y =>
      match mapE f xs with
      | Except.error e => Except.error e
      | Except.ok ys => Except.ok (y :: ys)

/-- The `AnswerType` enum of `src/main.py`. -/
inductive AnswerType
  | string | bool | float | int | list | label | date
deriving DecidableEq, Repr

/-- The `.value` of each enum member, as written in the source. -/
def AnswerType.value : AnswerType → String
  | AnswerType.string => "String"
  | AnswerType.bool => "Bool"
  | AnswerType.float => "Float"
  | AnswerType.int => "Int"
  | AnswerType.list => "List"
  | AnswerType.label => "Label"
  | AnswerType.date => "Date"

/-- The `Answer` GraphQL type.  Python assigns property values unconverted in
`marshal`, so the fields hold raw `Val`s. -/
structure Answer where
  uuid : Val
  answer : Val
  type : Val
  createdAt : Val
  updatedAt : Val
deriving DecidableEq, Repr

/-- `Answer.marshal` of `src/main.py`: keyword arguments evaluated in source
order, each a `obj['k']` access. -/
def Answer.marshal (obj : PropMap) : Except PyErr Answer := do
  let uuid ← obj.getE "uuid"
  let answer ← obj.getE "answer"
  let type ← obj.getE "type"
  let createdAt ← obj.getE "created_at"
  let updatedAt ← obj.getE "updated_at"
  pure ⟨uuid, answer, type, createdAt, updatedAt⟩

/-- The `SaveAnswerInput` input type. -/
structure SaveAnswerInput where
  answer : String
  questionUuid : String
  type : AnswerType
deriving DecidableEq, Repr

/-- The dict produced by `SaveAnswerInput.to_dict` (note `type` is the enum's
string `.value`). -/
structure AnswerDict where
  answer : String
  type : String
  questionUuid : String
deriving DecidableEq, Repr

/-- `SaveAnswerInput.to_dict` of `src/main.py`. -/
def SaveAnswerInput.to_dict (a : SaveAnswerInput) : AnswerDict :=
  ⟨a.answer, a.type.value, a.questionUuid⟩

/-- The `SaveAnswersInput` input type. -/
structure SaveAnswersInput where
  applicationUuid : String
  answers : List SaveAnswerInput
deriving DecidableEq, Repr

/-- `SaveAnswersInput.serialize` of `src/main.py`. -/
def SaveAnswersInput.serialize (d : SaveAnswersInput) : List AnswerDict :=
  d.answers.map SaveAnswerInput.to_dict

/-- The `Question` GraphQL type. -/
structure Question where
  uuid : Val
  sectionUuid : Val
  order : Val
  type : Val
  questionString : Val
  answer : Option Answer
deriving DecidableEq, Repr

/-- The expression `answer if answer is None else Answer.marshal(answer)` of
`Question.marshal`: `None` stays `None`, otherwise `Answer.marshal` runs (and
its `KeyError` propagates). -/
def marshalOptAnswer : Option PropMap → Except PyErr (Option Answer)
  | none => Except.ok none
  | some a =>
    match Answer.marshal a with
    | Except.error e => Except.error e
    | Except.ok m => Except.ok (some m)

/-- `Question.marshal` of `src/main.py`: first rebinds `answer` via
`marshalOptAnswer`, then reads the question keys in keyword-argument order. -/
def Question.marshal (question : PropMap) (answer : Option PropMap) :
    Except PyErr Question := do
  let ans ← marshalOptAnswer answer
  let uuid ← question.getE "uuid"
  let sectionUuid ← question.getE "section_uuid"
  let order ← question.getE "order"
  let type ← question.getE "type"
  let questionString ← question.getE "question_string"
  pure ⟨uuid, sectionUuid, order, type, questionString, ans⟩

/-- The `Application` GraphQL type. -/
structure Application where
  uuid : Val
  name : Val
  version : Val
  createdAt : Val
  updatedAt : Val
  questions : List Question
deriving DecidableEq, Repr

/-- One entry of the `questions` list that `getApplicationWithQuestion` builds
before marshalling: `{"question": ..., "answer": ...}` with `answer` possibly
absent. -/
structure QEntry where
  question : PropMap
  answer : Option PropMap
deriving DecidableEq, Repr

/-- The dict handed to `Application.marshal`: the application node's property
map plus the `questions` key.  `application.get('questions')` with the
falsy-default to `[]` is embedded by the `questions` field (callers that have
no `questions` key pass `[]`). -/
structure AppDict where
  props : PropMap
  questions : List QEntry
deriving DecidableEq, Repr

/-- `Application.marshal` of `src/main.py`: the five header keys are read by
`['k']` access in keyword-argument order, then the questions list
comprehension maps each entry through `Question.marshal`. -/
def Application.marshal (application : AppDict) : Except PyErr Application := do
  let uuid ← application.props.getE "uuid"
  let name ← application.props.getE "name"
  let version ← application.props.getE "version"
  let createdAt ← application.props.getE "created_at"
  let updatedAt ← application.props.getE "updated_at"
  let qs ← mapE (fun e => Question.marshal e.question e.answer)
    application.questions
  pure ⟨uuid, name, version, createdAt, updatedAt, qs⟩

/-- One row of the answered traversal (`RETURN app, q, qa, ans`), as the dict
built from the record.  `qa` is returned by the query but never read. -/
structure AnsRow where
  app : PropMap
  q : PropMap
  qa : PropMap
  ans : PropMap
deriving DecidableEq, Repr

/-- One row of the unanswered traversal (`RETURN app, q`). -/
structure NoAnsRow where
  app : PropMap
  q : PropMap
deriving DecidableEq, Repr

/-- The value of the local `app`'s property map after the two `if` statements
of `getApplicationWithQuestion`: set from `ans_rows[0]` when that list is
non-empty, then overwritten from `no_ans_rows[0]` when that one is non-empty;
`none` means the local was never assigned. -/
def pickApp : List AnsRow → List NoAnsRow → Option PropMap
  | [], [] => none
  | a :: _, [] => some a.app
  | _, b :: _ => some b.app

/-- The `questions` list the two `for` loops build: one
`{"question": q, "answer": ans}` entry per answered row, then one
`{"question": q}` entry per unanswered row, in traversal order. -/
def reconEntries (ansRows : List AnsRow) (noAnsRows : List NoAnsRow) :
    List QEntry :=
  ansRows.map (fun r => ⟨r.q, some r.ans⟩) ++
    noAnsRows.map (fun r => ⟨r.q, none⟩)

/-- `Query.getApplicationWithQuestion` of `src/main.py`, given the two
already-fetched row lists.  When both lists are empty the local `app` is
never assigned and its first read raises `UnboundLocalError`. -/
def Query.getApplicationWithQuestion (ansRows : List AnsRow)
    (noAnsRows : List NoAnsRow) : Except PyErr Application :=
  match pickApp ansRows noAnsRows with
  | none => Except.error (PyErr.unboundLocal "app")
  | some props => Application.marshal ⟨props, reconEntries ansRows noAnsRows⟩

/-- `Query.applications` of `src/main.py`, given the node property map of each
row of `MATCH (a:Application) RETURN a`.  Each node map holds only primitive
properties, so `application.get('questions')` yields `None` and the marshalled
`questions` list is empty: `AppDict.questions` is `[]`. -/
def Query.applications (rows : List PropMap) :
    Except PyErr (List Application) :=
  mapE (fun row => Application.marshal ⟨row, []⟩) rows

/-- One `HAS_ANSWER` relationship of the store together with the `Answer`
node it points to.  `apoc.create.uuid()` results are embedded as naturals
drawn from the store's counter; `datetime({epochmillis:timestamp()})` values
as the naturals passed in as `now`. -/
structure Rel where
  questionUuid : String
  hasApplicationUuid : String
  relUuid : Nat
  relCreatedAt : Nat
  relUpdatedAt : Nat
  ansUuid : Nat
  ansAnswer : String
  ansType : String
  ansCreatedAt : Nat
  ansUpdatedAt : Nat
deriving DecidableEq, Repr

/-- The slice of the graph store `saveAnswers` touches: the uuids of the
existing `Question` nodes, the `HAS_ANSWER` relationships with their `Answer`
nodes, and the fresh-uuid counter. -/
structure Store where
  questions : List String
  rels : List Rel
  nextId : Nat
deriving DecidableEq, Repr

/-- The `MERGE` pattern key: a `HAS_ANSWER` relationship from the matched
question whose `has_application_uuid` equals the interpolated application
uuid. -/
def Rel.keyed (r : Rel) (questionUuid applicationUuid : String) : Bool :=
  r.questionUuid == questionUuid && r.hasApplicationUuid == applicationUuid

/-- The `ON MATCH SET` clause: update the answer's `type`, `answer`,
`updated_at` and the relationship's `updated_at`; uuids and `created_at`
untouched. -/
def Rel.onMatchSet (r : Rel) (item : AnswerDict) (now : Nat) : Rel :=
  { r with
    ansType := item.type
    ansAnswer := item.answer
    ansUpdatedAt := now
    relUpdatedAt := now }

/-- The `ON CREATE SET` clause: fresh uuids for the answer node and the
relationship (in the order the query assigns them), all four timestamps set
to `now`. -/
def Rel.onCreate (item : AnswerDict) (applicationUuid : String)
    (now : Nat) (nextId : Nat) : Rel :=
  { questionUuid := item.questionUuid,
    hasApplicationUuid := applicationUuid,
    relUuid := nextId + 1, relCreatedAt := now, relUpdatedAt := now,
    ansUuid := nextId, ansAnswer := item.answer, ansType := item.type,
    ansCreatedAt := now, ansUpdatedAt := now }

/-- One `UNWIND` row of the save query:
`MATCH (q:Question {uuid: answer.questionUuid})` drops the row silently when
no such question exists; otherwise `MERGE` matches the keyed relationship
(`ON MATCH SET` applies to every match) or, when none exists, creates a fresh
relationship and answer node (`ON CREATE SET`). -/
def Store.mergeOne (st : Store) (applicationUuid : String) (now : Nat)
    (item : AnswerDict) : Store :=
  if st.questions.contains item.questionUuid then
    if st.rels.any (fun r => r.keyed item.questionUuid applicationUuid) then
      { st with rels := st.rels.map (fun r =>
          if r.keyed item.questionUuid applicationUuid then
            r.onMatchSet item now
          else r) }
    else
      { st with
        rels := st.rels ++ [Rel.onCreate item applicationUuid now st.nextId]
        nextId := st.nextId + 2 }
  else st

/-- `Mutation.saveAnswers` of `src/main.py`: serializes the batch, runs the
`UNWIND`ed merge row by row in order against the store, and returns `None`
(the declared `Optional[Question]` result is never populated). -/
def Mutation.saveAnswers (st : Store) (data : SaveAnswersInput) (now : Nat) :
    Store × Option Question :=
  (data.serialize.foldl (fun s item =>
    s.mergeOne data.applicationUuid now item) st, none)

/-- Number of questions carrying a given uuid in a marshalled list. -/
def countUuid (qs : List Question) (v : Val) : Nat :=
  qs.countP (fun q => decide (q.uuid = v))

/-- The `uuid` property of each answered row's question node, in traversal
order. -/
def ansUuids (ansRows : List AnsRow) : List (Option Val) :=
  ansRows.map (fun r => r.q.lookup "uuid")

/-- The `uuid` property of each unanswered row's question node, in traversal
order. -/
def noAnsUuids (noAnsRows : List NoAnsRow) : List (Option Val) :=
  noAnsRows.map (fun r => r.q.lookup "uuid")

/-- Required node keys read by `Answer.marshal`. -/
def Answer.requiredKeys : List String :=
  ["uuid", "answer", "type", "created_at", "updated_at"]

/-- Required node keys read by `Question.marshal`. -/
def Question.requiredKeys : List String :=
  ["uuid", "section_uuid", "order", "type", "question_string"]

/-- Required node keys read by `Application.marshal` for the header. -/
def Application.requiredKeys : List String :=
  ["uuid", "name", "version", "created_at", "updated_at"]

/-- Example application node property map. -/
def exApp : PropMap :=
  [("uuid", Val.str "A1"), ("name", Val.str "Home"),
   ("version", Val.str "1"), ("created_at", Val.date 1),
   ("updated_at", Val.date 2)]

/-- A second example application node property map, differing from `exApp`. -/
def exAppB : PropMap :=
  [("uuid", Val.str "A1"), ("name", Val.str "Motor"),
   ("version", Val.str "7"), ("created_at", Val.date 3),
   ("updated_at", Val.date 4)]

/-- Example question node property map (uuid `Q1`). -/
def exQ1 : PropMap :=
  [("uuid", Val.str "Q1"), ("section_uuid", Val.str "S1"),
   ("order", Val.int 1), ("type", Val.str "string"),
   ("question_string", Val.str "Capital?")]

/-- Example question node property map (uuid `Q2`). -/
def exQ2 : PropMap :=
  [("uuid", Val.str "Q2"), ("section_uuid", Val.str "S1"),
   ("order", Val.int 2), ("type", Val.str "string"),
   ("question_string", Val.str "Age?")]

/-- Example answer node property map. -/
def exAns : PropMap :=
  [("uuid", Val.str "N1"), ("answer", Val.str "Paris"),
   ("type", Val.str "String"), ("created_at", Val.date 1),
   ("updated_at", Val.date 2)]

/-- Example store holding only the question node `Q2` and no relationships. -/
def exStore : Store := ⟨["Q2"], [], 0⟩

/-- Example answered traversal row: `Q1` answered `Paris` on `A1`. -/
def exAnsRow : AnsRow := ⟨exApp, exQ1, [], exAns⟩

/-- Example unanswered traversal row: `Q2` unanswered on `A1`. -/
def exNoAnsRow : NoAnsRow := ⟨exApp, exQ2⟩

/-- The marshalled form of `exAns`. -/
def exAnsM : Answer :=
  ⟨Val.str "N1", Val.str "Paris", Val.str "String", Val.date 1, Val.date 2⟩

/-- The marshalled form of `exQ1`, with a given answer slot. -/
def exQ1M (a : Option Answer) : Question :=
  ⟨Val.str "Q1", Val.str "S1", Val.int 1, Val.str "string",
   Val.str "Capital?", a⟩

/-- The marshalled form of `exQ2`, unanswered. -/
def exQ2M : Question :=
  ⟨Val.str "Q2", Val.str "S1", Val.int 2, Val.str "string",
   Val.str "Age?", none⟩

/-- The marshalled result of querying `A1` with rows `exAnsRow`,
`exNoAnsRow`. -/
def exResult : Application :=
  ⟨Val.str "A1", Val.str "Home", Val.str "1", Val.date 1, Val.date 2,
   [exQ1M (some exAnsM), exQ2M]⟩

/-- The marshalled result when `Q1` shows up both answered and unanswered. -/
def exDupResult : Application :=
  ⟨Val.str "A1", Val.str "Home", Val.str "1", Val.date 1, Val.date 2,
   [exQ1M (some exAnsM), exQ1M none]⟩

/-- The marshalled result when the answered row carries `exApp` but the
unanswered row carries `exAppB`: the header comes from `exAppB`. -/
def exMixedResult : Application :=
  ⟨Val.str "A1", Val.str "Motor", Val.str "7", Val.date 3, Val.date 4,
   [exQ1M (some exAnsM), exQ2M]⟩

/-- The header-only marshalled form of `exApp`, as `listApplications` returns
it. -/
def exHeaderApp : Application :=
  ⟨Val.str "A1", Val.str "Home", Val.str "1", Val.date 1, Val.date 2, []⟩

/-- An answer node property map lacking every required key but `uuid`. -/
def exBadAns : PropMap := [("uuid", Val.str "N9")]

/-- A question node property map lacking every required key but `uuid`. -/
def exBadQ : PropMap := [("uuid", Val.str "Q9")]

/-- An application node property map lacking every required key but `uuid`. -/
def exBadApp : PropMap := [("uuid", Val.str "A9")]

end InsuranceAPI

namespace InsuranceAPI

theorem mapE_ok_length {α β : Type} (f : α → Except PyErr β) :
    ∀ (l : List α) (ys : List β), mapE f l = Except.ok ys → ys.length = l.length := by
  intro l
  induction l with
  | nil => intro ys h; simp [mapE] at h; simp [← h]
  | cons x xs ih =>
    intro ys h
    simp only [mapE] at h
    cases hf : f x with
    | error e => rw [hf] at h; cases h
    | ok y =>
      rw [hf] at h
      cases hm : mapE f xs with
      | error e => rw [hm] at h; cases h
      | ok ys' =>
        rw [hm] at h
        cases h
        simp [ih ys' hm]

theorem mapE_forall₂ {α β : Type} (f : α → Except PyErr β) :
    ∀ (l : List α) (ys : List β), mapE f l = Except.ok ys →
      List.Forall₂ (fun x y => f x = Except.ok y) l ys := by
  intro l
  induction l with
  | nil => intro ys h; simp [mapE] at h; simp [← h]
  | cons x xs ih =>
    intro ys h
    simp only [mapE] at h
    cases hf : f x with
    | error e => rw [hf] at h; cases h
    | ok y =>
      rw [hf] at h
      cases hm : mapE f xs with
      | error e => rw [hm] at h; cases h
      | ok ys' =>
        rw [hm] at h
        cases h
        exact List.Forall₂.cons hf (ih ys' hm)

theorem mapE_append_ok {α β : Type} (f : α → Except PyErr β) :
    ∀ (l₁ l₂ : List α) (ys : List β), mapE f (l₁ ++ l₂) = Except.ok ys →
      ∃ ys₁ ys₂, ys = ys₁ ++ ys₂ ∧ mapE f l₁ = Except.ok ys₁ ∧
        mapE f l₂ = Except.ok ys₂ := by
  intro l₁
  induction l₁ with
  | nil =>
    intro l₂ ys h
    exact ⟨[], ys, rfl, rfl, h⟩
  | cons x xs ih =>
    intro l₂ ys h
    simp only [List.cons_append, mapE, List.append_eq] at h
    cases hf : f x with
    | error e => rw [hf] at h; cases h
    | ok y =>
      rw [hf] at h
      cases hm : mapE f (xs ++ l₂) with
      | error e => rw [hm] at h; cases h
      | ok ys' =>
        rw [hm] at h
        cases h
        obtain ⟨ys₁, ys₂, rfl, h1, h2⟩ := ih l₂ ys' hm
        exact ⟨y :: ys₁, ys₂, rfl, by simp [mapE, hf, h1], h2⟩

theorem mapE_map {α β γ : Type} (f : β → Except PyErr γ) (g : α → β) :
    ∀ l : List α, mapE f (l.map g) = mapE (fun x => f (g x)) l := by
  intro l
  induction l with
  | nil => rfl
  | cons x xs ih => simp only [List.map_cons, mapE, ih]

theorem mapE_ok_countP {α β : Type} (f : α → Except PyErr β)
    (p : β → Bool) (pa : α → Bool)
    (hcomp : ∀ x y, f x = Except.ok y → p y = pa x) :
    ∀ (l : List α) (ys : List β), mapE f l = Except.ok ys →
      ys.countP p = l.countP pa := by
  intro l
  induction l with
  | nil =>
    intro ys h
    simp only [mapE] at h
    injection h with h
    subst h
    rfl
  | cons x xs ih =>
    intro ys h
    simp only [mapE] at h
    cases hf : f x with
    | error e => rw [hf] at h; cases h
    | ok y =>
      rw [hf] at h
      cases hm : mapE f xs with
      | error e => rw [hm] at h; cases h
      | ok ys' =>
        rw [hm] at h
        cases h
        simp [List.countP_cons, ih ys' hm, hcomp x y hf]

end InsuranceAPI

namespace InsuranceAPI

theorem answer_marshal_ok (obj : PropMap) (a : Answer)
    (h : Answer.marshal obj = Except.ok a) :
    obj.lookup "uuid" = some a.uuid ∧ obj.lookup "answer" = some a.answer ∧
    obj.lookup "type" = some a.type ∧
    obj.lookup "created_at" = some a.createdAt ∧
    obj.lookup "updated_at" = some a.updatedAt := by
  unfold Answer.marshal at h
  simp only [PropMap.getE, bind, Except.bind, pure, Except.pure] at h
  cases h1 : obj.lookup "uuid" <;> rw [h1] at h
  case none => cases h
  case some v1 =>
  cases h2 : obj.lookup "answer" <;> rw [h2] at h
  case none => cases h
  case some v2 =>
  cases h3 : obj.lookup "type" <;> rw [h3] at h
  case none => cases h
  case some v3 =>
  cases h4 : obj.lookup "created_at" <;> rw [h4] at h
  case none => cases h
  case some v4 =>
  cases h5 : obj.lookup "updated_at" <;> rw [h5] at h
  case none => cases h
  case some v5 =>
  cases h
  exact ⟨rfl, rfl, rfl, rfl, rfl⟩

theorem marshalOptAnswer_some_ok (am : PropMap) (o : Option Answer)
    (h : marshalOptAnswer (some am) = Except.ok o) :
    ∃ m, Answer.marshal am = Except.ok m ∧ o = some m := by
  simp only [marshalOptAnswer] at h
  cases ham : Answer.marshal am <;> rw [ham] at h
  case error e => cases h
  case ok m =>
  cases h
  exact ⟨m, rfl, rfl⟩

theorem question_marshal_ok (q : PropMap) (a : Option PropMap)
    (question : Question) (h : Question.marshal q a = Except.ok question) :
    q.lookup "uuid" = some question.uuid ∧
    q.lookup "section_uuid" = some question.sectionUuid ∧
    q.lookup "order" = some question.order ∧
    q.lookup "type" = some question.type ∧
    q.lookup "question_string" = some question.questionString ∧
    marshalOptAnswer a = Except.ok question.answer := by
  unfold Question.marshal at h
  simp only [PropMap.getE, bind, Except.bind, pure, Except.pure] at h
  cases ha : marshalOptAnswer a <;> rw [ha] at h
  case error e => cases h
  case ok ans =>
  cases h1 : q.lookup "uuid" <;> rw [h1] at h
  case none => cases h
  case some v1 =>
  cases h2 : q.lookup "section_uuid" <;> rw [h2] at h
  case none => cases h
  case some v2 =>
  cases h3 : q.lookup "order" <;> rw [h3] at h
  case none => cases h
  case some v3 =>
  cases h4 : q.lookup "type" <;> rw [h4] at h
  case none => cases h
  case some v4 =>
  cases h5 : q.lookup "question_string" <;> rw [h5] at h
  case none => cases h
  case some v5 =>
  cases h
  exact ⟨rfl, rfl, rfl, rfl, rfl, rfl⟩

theorem Question.marshal_answer_none (q : PropMap) (question : Question)
    (h : Question.marshal q none = Except.ok question) :
    question.answer = none := by
  have hm := (question_marshal_ok q none question h).2.2.2.2.2
  unfold marshalOptAnswer at hm
  cases hq : question.answer
  case none => rfl
  case some m => rw [hq] at hm; cases hm

theorem Question.marshal_answer_some (q am : PropMap) (question : Question)
    (h : Question.marshal q (some am) = Except.ok question) :
    ∃ m, Answer.marshal am = Except.ok m ∧ question.answer = some m := by
  have hm := (question_marshal_ok q (some am) question h).2.2.2.2.2
  exact marshalOptAnswer_some_ok am question.answer hm

theorem application_marshal_ok (d : AppDict) (appl : Application)
    (h : Application.marshal d = Except.ok appl) :
    d.props.lookup "uuid" = some appl.uuid ∧
    d.props.lookup "name" = some appl.name ∧
    d.props.lookup "version" = some appl.version ∧
    d.props.lookup "created_at" = some appl.createdAt ∧
    d.props.lookup "updated_at" = some appl.updatedAt ∧
    mapE (fun e => Question.marshal e.question e.answer) d.questions =
      Except.ok appl.questions := by
  unfold Application.marshal at h
  simp only [PropMap.getE, bind, Except.bind, pure, Except.pure] at h
  cases h1 : d.props.lookup "uuid" <;> rw [h1] at h
  case none => cases h
  case some v1 =>
  cases h2 : d.props.lookup "name" <;> rw [h2] at h
  case none => cases h
  case some v2 =>
  cases h3 : d.props.lookup "version" <;> rw [h3] at h
  case none => cases h
  case some v3 =>
  cases h4 : d.props.lookup "created_at" <;> rw [h4] at h
  case none => cases h
  case some v4 =>
  cases h5 : d.props.lookup "updated_at" <;> rw [h5] at h
  case none => cases h
  case some v5 =>
  cases hq : mapE (fun e => Question.marshal e.question e.answer) d.questions <;>
    rw [hq] at h
  case error e => cases h
  case ok qs =>
  cases h
  exact ⟨rfl, rfl, rfl, rfl, rfl, rfl⟩

end InsuranceAPI

namespace InsuranceAPI

theorem getApp_ok (ansRows : List AnsRow) (noAnsRows : List NoAnsRow)
    (appl : Application)
    (h : Query.getApplicationWithQuestion ansRows noAnsRows = Except.ok appl) :
    ∃ props, pickApp ansRows noAnsRows = some props ∧
      Application.marshal ⟨props, reconEntries ansRows noAnsRows⟩ =
        Except.ok appl := by
  unfold Query.getApplicationWithQuestion at h
  cases hp : pickApp ansRows noAnsRows <;> rw [hp] at h
  case none => cases h
  case some props => exact ⟨props, rfl, h⟩

theorem getApp_questions (ansRows : List AnsRow) (noAnsRows : List NoAnsRow)
    (appl : Application)
    (h : Query.getApplicationWithQuestion ansRows noAnsRows = Except.ok appl) :
    ∃ qs₁ qs₂, appl.questions = qs₁ ++ qs₂ ∧
      mapE (fun r => Question.marshal r.q (some r.ans)) ansRows =
        Except.ok qs₁ ∧
      mapE (fun r => Question.marshal r.q none) noAnsRows = Except.ok qs₂ := by
  obtain ⟨props, _, hm⟩ := getApp_ok ansRows noAnsRows appl h
  have h6 := (application_marshal_ok _ _ hm).2.2.2.2.2
  unfold reconEntries at h6
  obtain ⟨qs₁, qs₂, heq, h1, h2⟩ := mapE_append_ok _ _ _ _ h6
  rw [mapE_map] at h1 h2
  exact ⟨qs₁, qs₂, heq, h1, h2⟩

theorem recon_countP (ansRows : List AnsRow) (noAnsRows : List NoAnsRow)
    (appl : Application) (v : Val)
    (h : Query.getApplicationWithQuestion ansRows noAnsRows = Except.ok appl) :
    countUuid appl.questions v =
      ansRows.countP (fun r => decide (r.q.lookup "uuid" = some v)) +
        noAnsRows.countP (fun r => decide (r.q.lookup "uuid" = some v)) := by
  obtain ⟨qs₁, qs₂, heq, h1, h2⟩ := getApp_questions ansRows noAnsRows appl h
  unfold countUuid
  rw [heq, List.countP_append]
  have e1 : qs₁.countP (fun q => decide (q.uuid = v)) =
      ansRows.countP (fun r => decide (r.q.lookup "uuid" = some v)) := by
    refine mapE_ok_countP _ _ _ ?_ ansRows qs₁ h1
    intro r question hq
    have hl := (question_marshal_ok _ _ _ hq).1
    rw [hl]
    simp
  have e2 : qs₂.countP (fun q => decide (q.uuid = v)) =
      noAnsRows.countP (fun r => decide (r.q.lookup "uuid" = some v)) := by
    refine mapE_ok_countP _ _ _ ?_ noAnsRows qs₂ h2
    intro r question hq
    have hl := (question_marshal_ok _ _ _ hq).1
    rw [hl]
    simp
  rw [e1, e2]

theorem countP_decide_zero {α : Type} [DecidableEq α] (a : α) :
    ∀ l : List α, a ∉ l → l.countP (fun x => decide (x = a)) = 0 := by
  intro l
  induction l with
  | nil => intro; rfl
  | cons x xs ih =>
    intro hmem
    rw [List.countP_cons]
    have hx : ¬x = a := fun he => hmem (he ▸ List.mem_cons_self x xs)
    simp [hx, ih (fun hm => hmem (List.mem_cons_of_mem x hm))]

theorem countP_decide_one {α : Type} [DecidableEq α] (a : α) :
    ∀ l : List α, l.Nodup → a ∈ l → l.countP (fun x => decide (x = a)) = 1 := by
  intro l
  induction l with
  | nil => intro _ hmem; cases hmem
  | cons x xs ih =>
    intro hnd hmem
    rw [List.countP_cons]
    rcases List.mem_cons.mp hmem with heq | hmem'
    · subst heq
      rw [countP_decide_zero a xs (List.nodup_cons.mp hnd).1]
      simp
    · have hne : x ≠ a := by
        intro he
        subst he
        exact (List.nodup_cons.mp hnd).1 hmem'
      simp [hne, ih (List.nodup_cons.mp hnd).2 hmem']

end InsuranceAPI

namespace InsuranceAPI

theorem keyed_onMatchSet (r : Rel) (item : AnswerDict) (now : Nat)
    (qU aU : String) :
    (r.onMatchSet item now).keyed qU aU = r.keyed qU aU := rfl

theorem filter_map_onMatchSet (item : AnswerDict) (now : Nat)
    (qU aU : String) :
    ∀ l : List Rel,
      (l.map (fun r => if r.keyed qU aU then r.onMatchSet item now else r)).filter
          (fun r => r.keyed qU aU) =
        (l.filter (fun r => r.keyed qU aU)).map
          (fun r => r.onMatchSet item now) := by
  intro l
  induction l with
  | nil => rfl
  | cons r rs ih =>
    by_cases hk : r.keyed qU aU
    · simp only [List.map_cons, List.filter_cons, hk, if_pos,
        keyed_onMatchSet, ih]
    · simp only [List.map_cons, List.filter_cons, hk, if_neg,
        Bool.false_eq_true, keyed_onMatchSet, ih]
      simp [hk, ih]

theorem mergeOne_questions (st : Store) (aU : String) (now : Nat)
    (item : AnswerDict) :
    (st.mergeOne aU now item).questions = st.questions := by
  unfold Store.mergeOne
  split
  · split <;> rfl
  · rfl

theorem mergeOne_not_contains (st : Store) (aU : String) (now : Nat)
    (item : AnswerDict)
    (h : st.questions.contains item.questionUuid = false) :
    st.mergeOne aU now item = st := by
  have hmem : item.questionUuid ∉ st.questions := by simpa using h
  unfold Store.mergeOne
  simp [hmem]

theorem mergeOne_create (st : Store) (aU : String) (now : Nat)
    (item : AnswerDict)
    (hq : st.questions.contains item.questionUuid = true)
    (hnone : st.rels.filter (fun r => r.keyed item.questionUuid aU) = []) :
    st.mergeOne aU now item =
      { st with
        rels := st.rels ++ [Rel.onCreate item aU now st.nextId]
        nextId := st.nextId + 2 } := by
  have hany : st.rels.any (fun r => r.keyed item.questionUuid aU) = false := by
    rw [List.any_eq_false]
    intro r hr
    have := List.filter_eq_nil_iff.mp hnone r hr
    simpa using this
  have hmem : item.questionUuid ∈ st.questions := by simpa using hq
  unfold Store.mergeOne
  simp [hmem, hany]

theorem mergeOne_match (st : Store) (aU : String) (now : Nat)
    (item : AnswerDict)
    (hq : st.questions.contains item.questionUuid = true)
    (hsome : st.rels.any (fun r => r.keyed item.questionUuid aU) = true) :
    st.mergeOne aU now item =
      { st with
        rels := st.rels.map (fun r =>
          if r.keyed item.questionUuid aU then r.onMatchSet item now
          else r) } := by
  have hmem : item.questionUuid ∈ st.questions := by simpa using hq
  unfold Store.mergeOne
  simp [hmem, hsome]

end InsuranceAPI

namespace InsuranceAPI

theorem saveAnswers_single (st : Store) (appU : String) (a : SaveAnswerInput)
    (t : Nat) :
    Mutation.saveAnswers st ⟨appU, [a]⟩ t =
      (st.mergeOne appU t a.to_dict, none) := rfl

/-- C1: saving the same `(questionUuid, answer, type)` triple twice for the
same application, starting from a store that has the question and no
relationship keyed `(questionUuid, applicationUuid)`, leaves exactly one
answer-relationship with that key; the second save sets the answer's
`answer`/`type`/`updated_at` and the relationship's `updated_at` (to the
second timestamp), while both uuids and both `created_at` values are
unchanged from the first save. -/
theorem C1_upsert_idempotent (st : Store) (appU : String) (a : SaveAnswerInput)
    (t₁ t₂ : Nat)
    (hq : st.questions.contains a.questionUuid = true)
    (hnone : st.rels.filter (fun r => r.keyed a.questionUuid appU) = []) :
    ∃ r₁ r₂ : Rel,
      (Mutation.saveAnswers st ⟨appU, [a]⟩ t₁).1.rels.filter
          (fun r => r.keyed a.questionUuid appU) = [r₁] ∧
      (Mutation.saveAnswers (Mutation.saveAnswers st ⟨appU, [a]⟩ t₁).1
            ⟨appU, [a]⟩ t₂).1.rels.filter
          (fun r => r.keyed a.questionUuid appU) = [r₂] ∧
      r₂.ansAnswer = a.answer ∧ r₂.ansType = a.type.value ∧
      r₂.ansUpdatedAt = t₂ ∧ r₂.relUpdatedAt = t₂ ∧
      r₂.ansUuid = r₁.ansUuid ∧ r₂.relUuid = r₁.relUuid ∧
      r₂.ansCreatedAt = r₁.ansCreatedAt ∧
      r₂.relCreatedAt = r₁.relCreatedAt ∧
      r₁.ansCreatedAt = t₁ ∧ r₁.relCreatedAt = t₁ := by
  have hq' : st.questions.contains (a.to_dict).questionUuid = true := hq
  have hnone' :
      st.rels.filter (fun r => r.keyed (a.to_dict).questionUuid appU) = [] :=
    hnone
  have h1 : (Mutation.saveAnswers st ⟨appU, [a]⟩ t₁).1 =
      { st with
        rels := st.rels ++ [Rel.onCreate a.to_dict appU t₁ st.nextId]
        nextId := st.nextId + 2 } := by
    rw [saveAnswers_single]
    exact mergeOne_create st appU t₁ a.to_dict hq' hnone'
  have hkNew :
      (Rel.onCreate a.to_dict appU t₁ st.nextId).keyed a.questionUuid appU =
        true := by
    simp [Rel.onCreate, Rel.keyed, SaveAnswerInput.to_dict]
  have hfil1 :
      (st.rels ++ [Rel.onCreate a.to_dict appU t₁ st.nextId]).filter
          (fun r => r.keyed a.questionUuid appU) =
        [Rel.onCreate a.to_dict appU t₁ st.nextId] := by
    rw [List.filter_append, hnone]
    simp [hkNew]
  have hany :
      ((st.rels ++ [Rel.onCreate a.to_dict appU t₁ st.nextId]).any
          (fun r => r.keyed (a.to_dict).questionUuid appU)) = true := by
    refine List.any_eq_true.mpr ⟨Rel.onCreate a.to_dict appU t₁ st.nextId, ?_, hkNew⟩
    exact List.mem_append_right _ (List.mem_singleton.mpr rfl)
  have h2 : (Mutation.saveAnswers
        ({ st with
           rels := st.rels ++ [Rel.onCreate a.to_dict appU t₁ st.nextId]
           nextId := st.nextId + 2 } : Store) ⟨appU, [a]⟩ t₂).1 =
      { st with
        rels := (st.rels ++ [Rel.onCreate a.to_dict appU t₁ st.nextId]).map
          (fun r =>
            if r.keyed (a.to_dict).questionUuid appU then
              r.onMatchSet a.to_dict t₂
            else r)
        nextId := st.nextId + 2 } := by
    rw [saveAnswers_single]
    exact mergeOne_match _ appU t₂ a.to_dict hq' hany
  refine ⟨Rel.onCreate a.to_dict appU t₁ st.nextId,
    (Rel.onCreate a.to_dict appU t₁ st.nextId).onMatchSet a.to_dict t₂,
    ?_, ?_, rfl, rfl, rfl, rfl, rfl, rfl, rfl, rfl, rfl, rfl⟩
  · rw [h1]
    exact hfil1
  · rw [h1, h2]
    dsimp only
    rw [show (a.to_dict).questionUuid = a.questionUuid from rfl]
    have := filter_map_onMatchSet a.to_dict t₂ a.questionUuid appU
      (st.rels ++ [Rel.onCreate a.to_dict appU t₁ st.nextId])
    rw [this, hfil1]
    rfl

end InsuranceAPI

namespace InsuranceAPI

theorem foldl_mergeOne_filter (appU : String) (now : Nat) :
    ∀ (items : List AnswerDict) (st : Store),
      items.foldl (fun s item => s.mergeOne appU now item) st =
        (items.filter (fun i => st.questions.contains i.questionUuid)).foldl
          (fun s item => s.mergeOne appU now item) st := by
  intro items
  induction items with
  | nil => intro st; rfl
  | cons i rest ih =>
    intro st
    by_cases hc : st.questions.contains i.questionUuid
    · rw [List.filter_cons]
      simp only [hc, if_pos]
      rw [List.foldl_cons, List.foldl_cons]
      rw [ih (st.mergeOne appU now i)]
      rw [mergeOne_questions]
    · have hc' : st.questions.contains i.questionUuid = false := by
        simpa using hc
      rw [List.filter_cons]
      simp only [hc', Bool.false_eq_true, if_neg, not_false_iff]
      rw [List.foldl_cons, mergeOne_not_contains st appU now i hc']
      exact ih st

/-- C5 (amended): a batch entry whose `questionUuid` matches no `Question`
node is silently dropped — the whole operation behaves exactly as if the
batch had been pre-filtered to the entries whose question exists — and no
error of any kind is raised (the operation's type has no failure channel). -/
theorem C5_silent_drop_amended (st : Store) (data : SaveAnswersInput)
    (now : Nat) :
    Mutation.saveAnswers st data now =
      Mutation.saveAnswers st
        ⟨data.applicationUuid,
          data.answers.filter
            (fun a => st.questions.contains a.questionUuid)⟩ now := by
  unfold Mutation.saveAnswers
  refine congrArg (fun l => (l, (none : Option Question))) ?_
  show data.serialize.foldl _ st = _
  rw [foldl_mergeOne_filter]
  unfold SaveAnswersInput.serialize
  rw [List.filter_map]
  rfl

end InsuranceAPI

namespace InsuranceAPI

theorem pickApp_noAns (ansRows : List AnsRow) (r : NoAnsRow)
    (rest : List NoAnsRow) :
    pickApp ansRows (r :: rest) = some r.app := by
  cases ansRows <;> rfl

/-- C4 (amended): when both traversals return zero rows,
`getApplicationWithQuestion` fails with the runtime `UnboundLocalError` on
the local `app` — not with a typed `ApplicationNotFound`, which the code
does not define — and it never returns an `Application` with an empty
questions list. -/
theorem C4_unbound_local_amended (ansRows : List AnsRow)
    (noAnsRows : List NoAnsRow) :
    (ansRows = [] → noAnsRows = [] →
      Query.getApplicationWithQuestion ansRows noAnsRows =
        Except.error (PyErr.unboundLocal "app")) ∧
    (∀ appl, Query.getApplicationWithQuestion ansRows noAnsRows =
        Except.ok appl → appl.questions ≠ []) := by
  constructor
  · rintro rfl rfl
    rfl
  · intro appl h hq
    obtain ⟨props, hp, hm⟩ := getApp_ok _ _ _ h
    have h6 := (application_marshal_ok _ _ hm).2.2.2.2.2
    have hlen := mapE_ok_length _ _ _ h6
    rw [hq] at hlen
    simp only [List.length_nil, reconEntries, List.length_append,
      List.length_map] at hlen
    have ha : ansRows = [] := List.length_eq_zero.mp (by omega)
    have hn : noAnsRows = [] := List.length_eq_zero.mp (by omega)
    subst ha
    subst hn
    cases hp

theorem recon_length (ansRows : List AnsRow) (noAnsRows : List NoAnsRow)
    (appl : Application)
    (h : Query.getApplicationWithQuestion ansRows noAnsRows =
      Except.ok appl) :
    appl.questions.length = ansRows.length + noAnsRows.length := by
  obtain ⟨props, hp, hm⟩ := getApp_ok _ _ _ h
  have h6 := (application_marshal_ok _ _ hm).2.2.2.2.2
  have hlen := mapE_ok_length _ _ _ h6
  simpa [reconEntries] using hlen

/-- C7 (amended): no assertion compares the application projections of the
two row sets; whenever the unanswered row set is non-empty (in particular
when both sets are), the returned header fields are mapped from the first
unanswered row's application projection, the answered set's projection being
silently discarded. -/
theorem C7_header_from_unanswered_amended (ansRows : List AnsRow)
    (r : NoAnsRow) (rest : List NoAnsRow)
    (appl : Application)
    (h : Query.getApplicationWithQuestion ansRows (r :: rest) =
      Except.ok appl) :
    r.app.lookup "uuid" = some appl.uuid ∧
    r.app.lookup "name" = some appl.name ∧
    r.app.lookup "version" = some appl.version ∧
    r.app.lookup "created_at" = some appl.createdAt ∧
    r.app.lookup "updated_at" = some appl.updatedAt := by
  obtain ⟨props, hp, hm⟩ := getApp_ok _ _ _ h
  rw [pickApp_noAns] at hp
  injection hp with hp
  subst hp
  have hall := application_marshal_ok _ _ hm
  exact ⟨hall.1, hall.2.1, hall.2.2.1, hall.2.2.2.1, hall.2.2.2.2.1⟩

end InsuranceAPI

namespace InsuranceAPI

theorem answer_marshal_missing (obj : PropMap)
    (hmiss : ∃ k ∈ Answer.requiredKeys, obj.lookup k = none) :
    ∃ k ∈ Answer.requiredKeys, obj.lookup k = none ∧
      Answer.marshal obj = Except.error (PyErr.missingField k) := by
  cases h1 : obj.lookup "uuid" with
  | none =>
    refine ⟨"uuid", by simp [Answer.requiredKeys], h1, ?_⟩
    unfold Answer.marshal
    simp [PropMap.getE, h1, bind, Except.bind]
  | some v1 =>
  cases h2 : obj.lookup "answer" with
  | none =>
    refine ⟨"answer", by simp [Answer.requiredKeys], h2, ?_⟩
    unfold Answer.marshal
    simp [PropMap.getE, h1, h2, bind, Except.bind]
  | some v2 =>
  cases h3 : obj.lookup "type" with
  | none =>
    refine ⟨"type", by simp [Answer.requiredKeys], h3, ?_⟩
    unfold Answer.marshal
    simp [PropMap.getE, h1, h2, h3, bind, Except.bind]
  | some v3 =>
  cases h4 : obj.lookup "created_at" with
  | none =>
    refine ⟨"created_at", by simp [Answer.requiredKeys], h4, ?_⟩
    unfold Answer.marshal
    simp [PropMap.getE, h1, h2, h3, h4, bind, Except.bind]
  | some v4 =>
  cases h5 : obj.lookup "updated_at" with
  | none =>
    refine ⟨"updated_at", by simp [Answer.requiredKeys], h5, ?_⟩
    unfold Answer.marshal
    simp [PropMap.getE, h1, h2, h3, h4, h5, bind, Except.bind]
  | some v5 =>
  exfalso
  obtain ⟨k, hk, hnone⟩ := hmiss
  simp only [Answer.requiredKeys, List.mem_cons, List.mem_singleton] at hk
  rcases hk with rfl | rfl | rfl | rfl | rfl | hk
  · rw [h1] at hnone; cases hnone
  · rw [h2] at hnone; cases hnone
  · rw [h3] at hnone; cases hnone
  · rw [h4] at hnone; cases hnone
  · rw [h5] at hnone; cases hnone
  · cases hk

end InsuranceAPI

namespace InsuranceAPI

theorem question_marshal_missing (q : PropMap)
    (hmiss : ∃ k ∈ Question.requiredKeys, q.lookup k = none) :
    ∃ k ∈ Question.requiredKeys, q.lookup k = none ∧
      Question.marshal q none = Except.error (PyErr.missingField k) := by
  cases h1 : q.lookup "uuid" with
  | none =>
    refine ⟨"uuid", by simp [Question.requiredKeys], h1, ?_⟩
    unfold Question.marshal
    simp [PropMap.getE, marshalOptAnswer, h1, bind, Except.bind, pure,
      Except.pure]
  | some v1 =>
  cases h2 : q.lookup "section_uuid" with
  | none =>
    refine ⟨"section_uuid", by simp [Question.requiredKeys], h2, ?_⟩
    unfold Question.marshal
    simp [PropMap.getE, marshalOptAnswer, h1, h2, bind, Except.bind, pure,
      Except.pure]
  | some v2 =>
  cases h3 : q.lookup "order" with
  | none =>
    refine ⟨"order", by simp [Question.requiredKeys], h3, ?_⟩
    unfold Question.marshal
    simp [PropMap.getE, marshalOptAnswer, h1, h2, h3, bind, Except.bind, pure,
      Except.pure]
  | some v3 =>
  cases h4 : q.lookup "type" with
  | none =>
    refine ⟨"type", by simp [Question.requiredKeys], h4, ?_⟩
    unfold Question.marshal
    simp [PropMap.getE, marshalOptAnswer, h1, h2, h3, h4, bind, Except.bind,
      pure, Except.pure]
  | some v4 =>
  cases h5 : q.lookup "question_string" with
  | none =>
    refine ⟨"question_string", by simp [Question.requiredKeys], h5, ?_⟩
    unfold Question.marshal
    simp [PropMap.getE, marshalOptAnswer, h1, h2, h3, h4, h5, bind,
      Except.bind, pure, Except.pure]
  | some v5 =>
  exfalso
  obtain ⟨k, hk, hnone⟩ := hmiss
  simp only [Question.requiredKeys, List.mem_cons, List.mem_singleton] at hk
  rcases hk with rfl | rfl | rfl | rfl | rfl | hk
  · rw [h1] at hnone; cases hnone
  · rw [h2] at hnone; cases hnone
  · rw [h3] at hnone; cases hnone
  · rw [h4] at hnone; cases hnone
  · rw [h5] at hnone; cases hnone
  · cases hk

theorem Question.marshal_answer_error (q am : PropMap) (e : PyErr)
    (ham : Answer.marshal am = Except.error e) :
    Question.marshal q (some am) = Except.error e := by
  unfold Question.marshal
  simp [marshalOptAnswer, ham, bind, Except.bind]

theorem application_marshal_missing (d : AppDict)
    (hmiss : ∃ k ∈ Application.requiredKeys, d.props.lookup k = none) :
    ∃ k ∈ Application.requiredKeys, d.props.lookup k = none ∧
      Application.marshal d = Except.error (PyErr.missingField k) := by
  cases h1 : d.props.lookup "uuid" with
  | none =>
    refine ⟨"uuid", by simp [Application.requiredKeys], h1, ?_⟩
    unfold Application.marshal
    simp [PropMap.getE, h1, bind, Except.bind]
  | some v1 =>
  cases h2 : d.props.lookup "name" with
  | none =>
    refine ⟨"name", by simp [Application.requiredKeys], h2, ?_⟩
    unfold Application.marshal
    simp [PropMap.getE, h1, h2, bind, Except.bind]
  | some v2 =>
  cases h3 : d.props.lookup "version" with
  | none =>
    refine ⟨"version", by simp [Application.requiredKeys], h3, ?_⟩
    unfold Application.marshal
    simp [PropMap.getE, h1, h2, h3, bind, Except.bind]
  | some v3 =>
  cases h4 : d.props.lookup "created_at" with
  | none =>
    refine ⟨"created_at", by simp [Application.requiredKeys], h4, ?_⟩
    unfold Application.marshal
    simp [PropMap.getE, h1, h2, h3, h4, bind, Except.bind]
  | some v4 =>
  cases h5 : d.props.lookup "updated_at" with
  | none =>
    refine ⟨"updated_at", by simp [Application.requiredKeys], h5, ?_⟩
    unfold Application.marshal
    simp [PropMap.getE, h1, h2, h3, h4, h5, bind, Except.bind]
  | some v5 =>
  exfalso
  obtain ⟨k, hk, hnone⟩ := hmiss
  simp only [Application.requiredKeys, List.mem_cons, List.mem_singleton] at hk
  rcases hk with rfl | rfl | rfl | rfl | rfl | hk
  · rw [h1] at hnone; cases hnone
  · rw [h2] at hnone; cases hnone
  · rw [h3] at hnone; cases hnone
  · rw [h4] at hnone; cases hnone
  · rw [h5] at hnone; cases hnone
  · cases hk

end InsuranceAPI

namespace InsuranceAPI

theorem answer_marshal_error_shape (obj : PropMap) (e : PyErr)
    (h : Answer.marshal obj = Except.error e) :
    ∃ k ∈ Answer.requiredKeys, obj.lookup k = none ∧
      e = PyErr.missingField k := by
  cases h1 : obj.lookup "uuid" with
  | none =>
    refine ⟨"uuid", by simp [Answer.requiredKeys], h1, ?_⟩
    have hm : Answer.marshal obj = Except.error (PyErr.missingField "uuid") := by
      unfold Answer.marshal
      simp [PropMap.getE, h1, bind, Except.bind]
    rw [h] at hm
    injection hm with hm
  | some v1 =>
  cases h2 : obj.lookup "answer" with
  | none =>
    refine ⟨"answer", by simp [Answer.requiredKeys], h2, ?_⟩
    have hm : Answer.marshal obj =
        Except.error (PyErr.missingField "answer") := by
      unfold Answer.marshal
      simp [PropMap.getE, h1, h2, bind, Except.bind]
    rw [h] at hm
    injection hm with hm
  | some v2 =>
  cases h3 : obj.lookup "type" with
  | none =>
    refine ⟨"type", by simp [Answer.requiredKeys], h3, ?_⟩
    have hm : Answer.marshal obj =
        Except.error (PyErr.missingField "type") := by
      unfold Answer.marshal
      simp [PropMap.getE, h1, h2, h3, bind, Except.bind]
    rw [h] at hm
    injection hm with hm
  | some v3 =>
  cases h4 : obj.lookup "created_at" with
  | none =>
    refine ⟨"created_at", by simp [Answer.requiredKeys], h4, ?_⟩
    have hm : Answer.marshal obj =
        Except.error (PyErr.missingField "created_at") := by
      unfold Answer.marshal
      simp [PropMap.getE, h1, h2, h3, h4, bind, Except.bind]
    rw [h] at hm
    injection hm with hm
  | some v4 =>
  cases h5 : obj.lookup "updated_at" with
  | none =>
    refine ⟨"updated_at", by simp [Answer.requiredKeys], h5, ?_⟩
    have hm : Answer.marshal obj =
        Except.error (PyErr.missingField "updated_at") := by
      unfold Answer.marshal
      simp [PropMap.getE, h1, h2, h3, h4, h5, bind, Except.bind]
    rw [h] at hm
    injection hm with hm
  | some v5 =>
  exfalso
  have hm : Answer.marshal obj = Except.ok ⟨v1, v2, v3, v4, v5⟩ := by
    unfold Answer.marshal
    simp [PropMap.getE, h1, h2, h3, h4, h5, bind, Except.bind, pure,
      Except.pure]
  rw [h] at hm
  cases hm

theorem marshalOptAnswer_error_shape (a : Option PropMap) (e : PyErr)
    (h : marshalOptAnswer a = Except.error e) :
    ∃ am, a = some am ∧ Answer.marshal am = Except.error e := by
  cases a with
  | none =>
    simp only [marshalOptAnswer] at h
    cases h
  | some am =>
    refine ⟨am, rfl, ?_⟩
    simp only [marshalOptAnswer] at h
    cases ham : Answer.marshal am <;> rw [ham] at h
    case error e' =>
      injection h with h
      rw [h]
    case ok m => cases h

theorem question_marshal_missing_ok_answer (q : PropMap)
    (a : Option PropMap) (o : Option Answer)
    (hoa : marshalOptAnswer a = Except.ok o)
    (hmiss : ∃ k ∈ Question.requiredKeys, q.lookup k = none) :
    ∃ k ∈ Question.requiredKeys, q.lookup k = none ∧
      Question.marshal q a = Except.error (PyErr.missingField k) := by
  cases h1 : q.lookup "uuid" with
  | none =>
    refine ⟨"uuid", by simp [Question.requiredKeys], h1, ?_⟩
    unfold Question.marshal
    simp [PropMap.getE, hoa, h1, bind, Except.bind, pure, Except.pure]
  | some v1 =>
  cases h2 : q.lookup "section_uuid" with
  | none =>
    refine ⟨"section_uuid", by simp [Question.requiredKeys], h2, ?_⟩
    unfold Question.marshal
    simp [PropMap.getE, hoa, h1, h2, bind, Except.bind, pure, Except.pure]
  | some v2 =>
  cases h3 : q.lookup "order" with
  | none =>
    refine ⟨"order", by simp [Question.requiredKeys], h3, ?_⟩
    unfold Question.marshal
    simp [PropMap.getE, hoa, h1, h2, h3, bind, Except.bind, pure,
      Except.pure]
  | some v3 =>
  cases h4 : q.lookup "type" with
  | none =>
    refine ⟨"type", by simp [Question.requiredKeys], h4, ?_⟩
    unfold Question.marshal
    simp [PropMap.getE, hoa, h1, h2, h3, h4, bind, Except.bind, pure,
      Except.pure]
  | some v4 =>
  cases h5 : q.lookup "question_string" with
  | none =>
    refine ⟨"question_string", by simp [Question.requiredKeys], h5, ?_⟩
    unfold Question.marshal
    simp [PropMap.getE, hoa, h1, h2, h3, h4, h5, bind, Except.bind, pure,
      Except.pure]
  | some v5 =>
  exfalso
  obtain ⟨k, hk, hnone⟩ := hmiss
  simp only [Question.requiredKeys, List.mem_cons, List.mem_singleton] at hk
  rcases hk with rfl | rfl | rfl | rfl | rfl | hk
  · rw [h1] at hnone; cases hnone
  · rw [h2] at hnone; cases hnone
  · rw [h3] at hnone; cases hnone
  · rw [h4] at hnone; cases hnone
  · rw [h5] at hnone; cases hnone
  · cases hk

theorem question_marshal_missing_any (q : PropMap) (a : Option PropMap)
    (hmiss : ∃ k ∈ Question.requiredKeys, q.lookup k = none) :
    ∃ k, ((k ∈ Question.requiredKeys ∧ q.lookup k = none) ∨
        (∃ am, a = some am ∧ k ∈ Answer.requiredKeys ∧
          am.lookup k = none)) ∧
      Question.marshal q a = Except.error (PyErr.missingField k) := by
  cases hma : marshalOptAnswer a with
  | ok o =>
    obtain ⟨k, hk, hn, he⟩ := question_marshal_missing_ok_answer q a o hma
      hmiss
    exact ⟨k, Or.inl ⟨hk, hn⟩, he⟩
  | error e =>
    obtain ⟨am, rfl, ham⟩ := marshalOptAnswer_error_shape a e hma
    obtain ⟨k, hk, hn, rfl⟩ := answer_marshal_error_shape am e ham
    exact ⟨k, Or.inr ⟨am, rfl, hk, hn⟩,
      Question.marshal_answer_error q am _ ham⟩

theorem question_marshal_missing_answer_map (q am : PropMap)
    (hmiss : ∃ k ∈ Answer.requiredKeys, am.lookup k = none) :
    ∃ k ∈ Answer.requiredKeys, am.lookup k = none ∧
      Question.marshal q (some am) =
        Except.error (PyErr.missingField k) := by
  obtain ⟨k, hk, hn, he⟩ := answer_marshal_missing am hmiss
  exact ⟨k, hk, hn, Question.marshal_answer_error q am _ he⟩



/-- C1 witness: Scenario B concretely — saving `(Q2, "42", int)` twice on
application `A1` against `exStore`. -/
theorem C1_upsert_idempotent_witness :
    ∃ r₁ r₂ : Rel,
      (Mutation.saveAnswers exStore ⟨"A1", [⟨"42", "Q2", AnswerType.int⟩]⟩
          10).1.rels.filter (fun r => r.keyed "Q2" "A1") = [r₁] ∧
      (Mutation.saveAnswers
          (Mutation.saveAnswers exStore
            ⟨"A1", [⟨"42", "Q2", AnswerType.int⟩]⟩ 10).1
          ⟨"A1", [⟨"42", "Q2", AnswerType.int⟩]⟩ 20).1.rels.filter
          (fun r => r.keyed "Q2" "A1") = [r₂] ∧
      r₂.ansAnswer = "42" ∧ r₂.ansType = "Int" ∧
      r₂.ansUpdatedAt = 20 ∧ r₂.relUpdatedAt = 20 ∧
      r₂.ansUuid = r₁.ansUuid ∧ r₂.relUuid = r₁.relUuid ∧
      r₂.ansCreatedAt = r₁.ansCreatedAt ∧
      r₂.relCreatedAt = r₁.relCreatedAt ∧
      r₁.ansCreatedAt = 10 ∧ r₁.relCreatedAt = 10 :=
  C1_upsert_idempotent exStore "A1" ⟨"42", "Q2", AnswerType.int⟩ 10 20
    (by decide) (by decide)

/-- C2: the questions sequence of a successful `getApplicationWithQuestion`
is the answered rows, each carrying its mapped `Answer`, in traversal
order, followed by the unanswered rows, each with `answer` absent, in
traversal order — no sorting by `Question.order` takes place. -/
theorem C2_answered_first_ordering (ansRows : List AnsRow)
    (noAnsRows : List NoAnsRow) (appl : Application)
    (h : Query.getApplicationWithQuestion ansRows noAnsRows =
      Except.ok appl) :
    ∃ qs₁ qs₂,
      appl.questions = qs₁ ++ qs₂ ∧
      mapE (fun r => Question.marshal r.q (some r.ans)) ansRows =
        Except.ok qs₁ ∧
      mapE (fun r => Question.marshal r.q none) noAnsRows = Except.ok qs₂ ∧
      List.Forall₂ (fun (r : AnsRow) (q : Question) =>
        ∃ m, Answer.marshal r.ans = Except.ok m ∧ q.answer = some m)
        ansRows qs₁ ∧
      List.Forall₂ (fun (_ : NoAnsRow) (q : Question) => q.answer = none)
        noAnsRows qs₂ := by
  obtain ⟨qs₁, qs₂, heq, h1, h2⟩ := getApp_questions ansRows noAnsRows appl h
  refine ⟨qs₁, qs₂, heq, h1, h2, ?_, ?_⟩
  · refine List.Forall₂.imp ?_ (mapE_forall₂ _ _ _ h1)
    intro r q hm
    exact Question.marshal_answer_some _ _ _ hm
  · refine List.Forall₂.imp ?_ (mapE_forall₂ _ _ _ h2)
    intro r q hm
    exact Question.marshal_answer_none _ _ hm

/-- C2 witness: Scenario A concretely — `Q1` answered `Paris` first, `Q2`
unanswered second. -/
theorem C2_answered_first_ordering_witness :
    ∃ qs₁ qs₂,
      exResult.questions = qs₁ ++ qs₂ ∧
      mapE (fun r => Question.marshal r.q (some r.ans)) [exAnsRow] =
        Except.ok qs₁ ∧
      mapE (fun r => Question.marshal r.q none) [exNoAnsRow] =
        Except.ok qs₂ ∧
      List.Forall₂ (fun (r : AnsRow) (q : Question) =>
        ∃ m, Answer.marshal r.ans = Except.ok m ∧ q.answer = some m)
        [exAnsRow] qs₁ ∧
      List.Forall₂ (fun (_ : NoAnsRow) (q : Question) => q.answer = none)
        [exNoAnsRow] qs₂ :=
  C2_answered_first_ordering [exAnsRow] [exNoAnsRow] exResult rfl

/-- C3 counterexample: with `Q1` occurring in both the answered and the
unanswered row set, the reconciled output contains `Q1` twice, so a question
id occurring in the inputs does not occur exactly once in the output. -/
theorem C3_counterexample :
    (Query.getApplicationWithQuestion [exAnsRow] [⟨exApp, exQ1⟩]).map
        (fun appl => countUuid appl.questions (Val.str "Q1")) =
      Except.ok 2 := rfl

/-- C3 (amended): the reconciled list's length always equals
answered-count + unanswered-count; and when the question uuids of the input
rows are pairwise distinct (within and across the two sets), every uuid
occurring in either input set occurs exactly once in the output. -/
theorem C3_completeness_amended (ansRows : List AnsRow)
    (noAnsRows : List NoAnsRow) (appl : Application)
    (h : Query.getApplicationWithQuestion ansRows noAnsRows =
      Except.ok appl) :
    appl.questions.length = ansRows.length + noAnsRows.length ∧
    ∀ v : Val, (ansUuids ansRows ++ noAnsUuids noAnsRows).Nodup →
      some v ∈ ansUuids ansRows ++ noAnsUuids noAnsRows →
      countUuid appl.questions v = 1 := by
  refine ⟨recon_length _ _ _ h, ?_⟩
  intro v hnd hmem
  rw [recon_countP _ _ _ v h]
  have hc := countP_decide_one (some v) _ hnd hmem
  rw [List.countP_append] at hc
  unfold ansUuids noAnsUuids at hc
  rw [List.countP_map, List.countP_map] at hc
  simpa [Function.comp] using hc

/-- C3 witness: Scenario A concretely — two rows, `Q1` exactly once. -/
theorem C3_completeness_amended_witness :
    exResult.questions.length = 1 + 1 ∧
    countUuid exResult.questions (Val.str "Q1") = 1 :=
  ⟨(C3_completeness_amended [exAnsRow] [exNoAnsRow] exResult rfl).1,
   (C3_completeness_amended [exAnsRow] [exNoAnsRow] exResult rfl).2
     (Val.str "Q1") (by decide) (by decide)⟩

end InsuranceAPI

namespace InsuranceAPI

/-- C4 counterexample: with zero rows in both traversals the operation fails
with the Python `UnboundLocalError` on `app`; no typed `ApplicationNotFound`
exists anywhere in the code (`PyErr` has no such constructor). -/
theorem C4_counterexample :
    Query.getApplicationWithQuestion [] [] =
      Except.error (PyErr.unboundLocal "app") := rfl

/-- C4 witness: the empty-input error concretely, and a successful result
always carrying a non-empty questions list. -/
theorem C4_unbound_local_amended_witness :
    Query.getApplicationWithQuestion [] [] =
        Except.error (PyErr.unboundLocal "app") ∧
    exResult.questions ≠ [] :=
  ⟨(C4_unbound_local_amended [] []).1 rfl rfl,
   (C4_unbound_local_amended [exAnsRow] [exNoAnsRow]).2 exResult rfl⟩

/-- C5 counterexample: a batch naming the non-existent question `Q99`
together with the existing `Q2` completes without any error, applies the
`Q2` entry, and silently drops the `Q99` entry — no `QuestionNotFound` is
raised (none exists in the code). -/
theorem C5_counterexample :
    Mutation.saveAnswers exStore
        ⟨"A1", [⟨"x", "Q99", AnswerType.string⟩,
                ⟨"42", "Q2", AnswerType.int⟩]⟩ 10 =
      (⟨["Q2"], [⟨"Q2", "A1", 1, 10, 10, 0, "42", "Int", 10, 10⟩], 2⟩,
        none) := rfl

/-- C6 counterexample: with `Q1` in both row sets the engine raises no
internal-consistency error; it returns normally with `Q1` emitted twice. -/
theorem C6_counterexample :
    (Query.getApplicationWithQuestion [exAnsRow] [⟨exApp, exQ1⟩]).map
        (fun appl => appl.questions.map (fun q => q.uuid)) =
      Except.ok [Val.str "Q1", Val.str "Q1"] := rfl

/-- C6 (amended): the engine performs no disjointness check: when a question
uuid occurs in both row sets and marshalling succeeds, the operation returns
normally and that uuid appears at least twice in the output (once per
occurrence, never dropped). -/
theorem C6_no_disjointness_check_amended (ansRows : List AnsRow)
    (noAnsRows : List NoAnsRow) (appl : Application) (v : Val)
    (h : Query.getApplicationWithQuestion ansRows noAnsRows =
      Except.ok appl)
    (ha : 0 < ansRows.countP (fun r => decide (r.q.lookup "uuid" = some v)))
    (hn : 0 < noAnsRows.countP
      (fun r => decide (r.q.lookup "uuid" = some v))) :
    2 ≤ countUuid appl.questions v := by
  rw [recon_countP _ _ _ v h]
  omega

/-- C6 witness: the duplicated `Q1` input concretely. -/
theorem C6_no_disjointness_check_amended_witness :
    2 ≤ countUuid exDupResult.questions (Val.str "Q1") :=
  C6_no_disjointness_check_amended [exAnsRow] [⟨exApp, exQ1⟩] exDupResult
    (Val.str "Q1") rfl (by decide) (by decide)

/-- C7 counterexample: the two row sets carry different application
projections (`exApp` vs `exAppB`), yet the operation does not fail: it
returns the unanswered set's projection (`name = Motor`). -/
theorem C7_counterexample :
    exApp ≠ exAppB ∧
    (Query.getApplicationWithQuestion [exAnsRow] [⟨exAppB, exQ2⟩]).map
        (fun appl => appl.name) = Except.ok (Val.str "Motor") :=
  ⟨by decide, rfl⟩

/-- C7 witness: mixed projections concretely — the header fields equal the
unanswered row's projection `exAppB`. -/
theorem C7_header_from_unanswered_amended_witness :
    exAppB.lookup "uuid" = some exMixedResult.uuid ∧
    exAppB.lookup "name" = some exMixedResult.name ∧
    exAppB.lookup "version" = some exMixedResult.version ∧
    exAppB.lookup "created_at" = some exMixedResult.createdAt ∧
    exAppB.lookup "updated_at" = some exMixedResult.updatedAt :=
  C7_header_from_unanswered_amended [exAnsRow] ⟨exAppB, exQ2⟩ []
    exMixedResult rfl

end InsuranceAPI

namespace InsuranceAPI

/-- C8: the Record Mapper fails with a `missingField` (`KeyError`) error
whenever a required key is absent: for `Answer` marshalling, for `Question`
marshalling with any answer slot (absent, well-formed or malformed — a
malformed sub-map fails on one of its own required keys), and for
`Application` marshalling; on success every field equals the stored value
(nothing is silently defaulted), and an absent optional answer maps to the
explicit `none`, never a sentinel. -/
theorem C8_record_mapper_missing_field :
    (∀ obj : PropMap, (∃ k ∈ Answer.requiredKeys, obj.lookup k = none) →
      ∃ k ∈ Answer.requiredKeys, obj.lookup k = none ∧
        Answer.marshal obj = Except.error (PyErr.missingField k)) ∧
    (∀ (obj : PropMap) (a : Answer), Answer.marshal obj = Except.ok a →
      obj.lookup "uuid" = some a.uuid ∧
      obj.lookup "answer" = some a.answer ∧
      obj.lookup "type" = some a.type ∧
      obj.lookup "created_at" = some a.createdAt ∧
      obj.lookup "updated_at" = some a.updatedAt) ∧
    (∀ (q : PropMap) (a : Option PropMap),
      (∃ k ∈ Question.requiredKeys, q.lookup k = none) →
      ∃ k, ((k ∈ Question.requiredKeys ∧ q.lookup k = none) ∨
          (∃ am, a = some am ∧ k ∈ Answer.requiredKeys ∧
            am.lookup k = none)) ∧
        Question.marshal q a = Except.error (PyErr.missingField k)) ∧
    (∀ (q am : PropMap), (∃ k ∈ Answer.requiredKeys, am.lookup k = none) →
      ∃ k ∈ Answer.requiredKeys, am.lookup k = none ∧
        Question.marshal q (some am) =
          Except.error (PyErr.missingField k)) ∧
    (∀ (q : PropMap) (a : Option PropMap) (question : Question),
      Question.marshal q a = Except.ok question →
      q.lookup "uuid" = some question.uuid ∧
      q.lookup "section_uuid" = some question.sectionUuid ∧
      q.lookup "order" = some question.order ∧
      q.lookup "type" = some question.type ∧
      q.lookup "question_string" = some question.questionString ∧
      marshalOptAnswer a = Except.ok question.answer) ∧
    (∀ (q : PropMap) (question : Question),
      Question.marshal q none = Except.ok question →
      question.answer = none) ∧
    (∀ d : AppDict,
      (∃ k ∈ Application.requiredKeys, d.props.lookup k = none) →
      ∃ k ∈ Application.requiredKeys, d.props.lookup k = none ∧
        Application.marshal d = Except.error (PyErr.missingField k)) ∧
    (∀ (d : AppDict) (appl : Application),
      Application.marshal d = Except.ok appl →
      d.props.lookup "uuid" = some appl.uuid ∧
      d.props.lookup "name" = some appl.name ∧
      d.props.lookup "version" = some appl.version ∧
      d.props.lookup "created_at" = some appl.createdAt ∧
      d.props.lookup "updated_at" = some appl.updatedAt ∧
      mapE (fun e => Question.marshal e.question e.answer) d.questions =
        Except.ok appl.questions) :=
  ⟨answer_marshal_missing, answer_marshal_ok, question_marshal_missing_any,
   question_marshal_missing_answer_map, question_marshal_ok,
   Question.marshal_answer_none, application_marshal_missing,
   application_marshal_ok⟩

/-- C8 witness: concrete maps exercising each clause — a truncated answer
map; the well-formed `exAns`; a truncated question map paired with a
well-formed answer sub-map (the live answered-row case); a complete
question map paired with a truncated answer sub-map; the successful
answered `exQ1`; the unanswered `exQ2`; and a truncated and a complete
application map. -/
theorem C8_record_mapper_missing_field_witness :
    (∃ k ∈ Answer.requiredKeys, exBadAns.lookup k = none ∧
      Answer.marshal exBadAns = Except.error (PyErr.missingField k)) ∧
    (exAns.lookup "uuid" = some exAnsM.uuid ∧
      exAns.lookup "answer" = some exAnsM.answer ∧
      exAns.lookup "type" = some exAnsM.type ∧
      exAns.lookup "created_at" = some exAnsM.createdAt ∧
      exAns.lookup "updated_at" = some exAnsM.updatedAt) ∧
    (∃ k, ((k ∈ Question.requiredKeys ∧ exBadQ.lookup k = none) ∨
        (∃ am, some exAns = some am ∧ k ∈ Answer.requiredKeys ∧
          am.lookup k = none)) ∧
      Question.marshal exBadQ (some exAns) =
        Except.error (PyErr.missingField k)) ∧
    (∃ k ∈ Answer.requiredKeys, exBadAns.lookup k = none ∧
      Question.marshal exQ1 (some exBadAns) =
        Except.error (PyErr.missingField k)) ∧
    (exQ1.lookup "uuid" = some (exQ1M (some exAnsM)).uuid ∧
      exQ1.lookup "section_uuid" = some (exQ1M (some exAnsM)).sectionUuid ∧
      exQ1.lookup "order" = some (exQ1M (some exAnsM)).order ∧
      exQ1.lookup "type" = some (exQ1M (some exAnsM)).type ∧
      exQ1.lookup "question_string" =
        some (exQ1M (some exAnsM)).questionString ∧
      marshalOptAnswer (some exAns) =
        Except.ok (exQ1M (some exAnsM)).answer) ∧
    (exQ2M.answer = none) ∧
    (∃ k ∈ Application.requiredKeys, (exBadApp : PropMap).lookup k = none ∧
      Application.marshal ⟨exBadApp, []⟩ =
        Except.error (PyErr.missingField k)) ∧
    (exApp.lookup "uuid" = some exHeaderApp.uuid ∧
      exApp.lookup "name" = some exHeaderApp.name ∧
      exApp.lookup "version" = some exHeaderApp.version ∧
      exApp.lookup "created_at" = some exHeaderApp.createdAt ∧
      exApp.lookup "updated_at" = some exHeaderApp.updatedAt ∧
      mapE (fun e => Question.marshal e.question e.answer)
        ([] : List QEntry) = Except.ok exHeaderApp.questions) :=
  ⟨C8_record_mapper_missing_field.1 exBadAns ⟨"answer", by decide, rfl⟩,
   C8_record_mapper_missing_field.2.1 exAns exAnsM rfl,
   C8_record_mapper_missing_field.2.2.1 exBadQ (some exAns)
     ⟨"section_uuid", by decide, rfl⟩,
   C8_record_mapper_missing_field.2.2.2.1 exQ1 exBadAns
     ⟨"answer", by decide, rfl⟩,
   C8_record_mapper_missing_field.2.2.2.2.1 exQ1 (some exAns)
     (exQ1M (some exAnsM)) rfl,
   C8_record_mapper_missing_field.2.2.2.2.2.1 exQ2 exQ2M rfl,
   C8_record_mapper_missing_field.2.2.2.2.2.2.1 ⟨exBadApp, []⟩
     ⟨"name", by decide, rfl⟩,
   C8_record_mapper_missing_field.2.2.2.2.2.2.2 ⟨exApp, []⟩ exHeaderApp
     rfl⟩

/-- C9: `listApplications` returns one `Application` per application node
row, its header fields mapped from the node's properties and its questions
list empty. -/
theorem C9_list_applications (rows : List PropMap)
    (apps : List Application)
    (h : Query.applications rows = Except.ok apps) :
    List.Forall₂ (fun (row : PropMap) (app : Application) =>
      app.questions = [] ∧
      row.lookup "uuid" = some app.uuid ∧
      row.lookup "name" = some app.name ∧
      row.lookup "version" = some app.version ∧
      row.lookup "created_at" = some app.createdAt ∧
      row.lookup "updated_at" = some app.updatedAt) rows apps := by
  refine List.Forall₂.imp ?_ (mapE_forall₂ _ _ _ h)
  intro row app hm
  have hall := application_marshal_ok _ _ hm
  have hq : Except.ok ([] : List Question) = Except.ok app.questions :=
    hall.2.2.2.2.2
  injection hq with hq
  exact ⟨hq.symm, hall.1, hall.2.1, hall.2.2.1, hall.2.2.2.1,
    hall.2.2.2.2.1⟩

/-- C9 witness: listing the single node `exApp` yields the header-only
`exHeaderApp`. -/
theorem C9_list_applications_witness :
    List.Forall₂ (fun (row : PropMap) (app : Application) =>
      app.questions = [] ∧
      row.lookup "uuid" = some app.uuid ∧
      row.lookup "name" = some app.name ∧
      row.lookup "version" = some app.version ∧
      row.lookup "created_at" = some app.createdAt ∧
      row.lookup "updated_at" = some app.updatedAt)
      [exApp] [exHeaderApp] :=
  C9_list_applications [exApp] [exHeaderApp] rfl

/-- C10: `saveAnswers` always returns `None` as its GraphQL payload — the
declared `Optional[Question]` result is never populated. -/
theorem C10_save_answers_returns_none (st : Store)
    (data : SaveAnswersInput) (now : Nat) :
    (Mutation.saveAnswers st data now).2 = none := rfl

end InsuranceAPI
